import Mathlib

/-!
Shallow embedding of the publish pipeline of `llm-code-deployer`
(`backend/deploy_repo.py` and `backend/main.py`), together with proofs of
the behavioural properties stated in the specification.

External effects (git subprocess invocations, HTTP requests, clock sleeps)
are modelled by explicit oracle parameters; every function here is a pure,
executable translation of the corresponding Python function, and the event
lists returned by the orchestration models record which external calls were
issued, in order.
-/

/-- Result of one git subprocess invocation, mirroring the fields of
`subprocess.CompletedProcess` used by `deploy_repo.py`. -/
structure GitResult where
  returncode : Int
  stdout : String
  stderr : String
deriving DecidableEq

/-- Boolean test that `pre` is a leading segment of `l`. -/
def isPrefixB : List Char → List Char → Bool
  | [], _ => true
  | _ :: _, [] => false
  | a :: xs, b :: ys => a == b && isPrefixB xs ys

/-- Boolean test that `needle` occurs contiguously inside `hay`, the model of
the Python substring operator `needle in hay`. -/
def isInfixB (needle : List Char) : List Char → Bool
  | [] => needle.isEmpty
  | b :: t => isPrefixB needle (b :: t) || isInfixB needle t

/-- Python `needle in hay` on strings. -/
def containsSub (hay needle : String) : Bool :=
  isInfixB needle.data hay.data

/-- ASCII model of Python `str.lower()`. -/
def pyLower (s : String) : String :=
  String.mk (s.data.map Char.toLower)

/-- Python `s or fallback` for strings: the fallback replaces the empty string. -/
def orElse (s fallback : String) : String :=
  if s = "" then fallback else s

/-- Drop the trailing run of characters satisfying `p`. -/
def dropTrailing (p : Char → Bool) : List Char → List Char
  | [] => []
  | c :: t =>
    let r := dropTrailing p t
    if r.isEmpty then (if p c then [] else [c]) else c :: r

/-- ASCII model of Python `str.strip()`: remove leading and trailing
whitespace. -/
def pyStrip (s : String) : String :=
  String.mk (dropTrailing Char.isWhitespace (s.data.dropWhile Char.isWhitespace))

/-- Outcome of `_handle_push_error`: the Python function always raises, either
`PermissionError` (the permission-specific error) or `RuntimeError` (the
generic push error). -/
inductive PushError where
  | permission (message : String)
  | generic (stdoutPart stderrPart : String)
deriving DecidableEq

/-- The constant guidance text of the `PermissionError` message raised by
`_handle_push_error` (the dedented literal from `deploy_repo.py`), up to the
point where the original git stderr is appended. -/
def permissionGuidance : String :=
  "GitHub rejected the push (permission denied). This usually happens when the PAT lacks the `repo` scope or\nis a fine-grained token that does not include newly created repositories.\n\nPlease create a new Personal Access Token (classic) with at least the `repo` scope, update `GITHUB_TOKEN` in\nbackend/.env, restart the server, and re-run the build.\n\nOriginal git error:\n"

/-- Full message of the permission-specific push error. -/
def permissionMessage (stderr : String) : String :=
  permissionGuidance ++ stderr

/-- The permission-denial pattern tested by `_handle_push_error`:
both `"Permission to"` and `"denied"` occur in the stripped stderr. -/
def permDenialPattern (stderr : String) : Bool :=
  containsSub stderr "Permission to" && containsSub stderr "denied"

/-- Model of `_handle_push_error` (deploy_repo.py lines 59-84): classify a
failed push result, raising the permission-specific error when the
permission-denial pattern is present in the stripped stderr, and the generic
push error carrying stripped stdout and stderr (with an `<empty>`
placeholder) otherwise. -/
def handle_push_error (result : GitResult) : PushError :=
  let stderr := pyStrip result.stderr
  if permDenialPattern stderr then
    PushError.permission (permissionMessage stderr)
  else
    PushError.generic (orElse (pyStrip result.stdout) "<empty>") (orElse stderr "<empty>")

/-- The non-fast-forward / diverged-history test of `_push_with_retry`:
the lowercased stderr contains `"non-fast-forward"` or `"fetch first"`. -/
def conflict_indicated (stderr : String) : Bool :=
  containsSub (pyLower stderr) "non-fast-forward" || containsSub (pyLower stderr) "fetch first"

/-- Python `list.insert(1, x)`. -/
def insertSecond (x : String) : List String → List String
  | [] => [x]
  | a :: t => a :: x :: t

/-- The force-flag injection of `_push_with_retry`: insert `"-f"` at index 1
only when neither `"-f"` nor `"--force"` already occurs among the arguments. -/
def insert_force_flag (args : List String) : List String :=
  if "-f" ∈ args ∨ "--force" ∈ args then args else insertSecond "-f" args

/-- Model of `_push_with_retry` (deploy_repo.py lines 102-118). The git
subprocess is the oracle `run`; the returned list records every git
invocation issued, in order. `none` means the push succeeded; `some e` means
the Python function raised `e`. -/
def push_with_retry (run : List String → GitResult) (args : List String)
    (force_on_conflict : Bool) : Option PushError × List (List String) :=
  let result := run args
  if result.returncode = 0 then (none, [args])
  else if force_on_conflict && conflict_indicated result.stderr then
    let force_args := insert_force_flag args
    let force_result := run force_args
    if force_result.returncode = 0 then (none, [args, force_args])
    else (some (handle_push_error force_result), [args, force_args])
  else (some (handle_push_error result), [args])

/-- The push attempts issued by the round-1 publish phase of
`create_and_push_repo` (deploy_repo.py lines 198-204), as a function of the
two commit-gate outcomes: the workflow-descriptor push happens when the
workflow commit was created, and the content push happens when the content
commit was created or the workflow commit was not. -/
def create_and_push_pushes (workflow_committed content_committed : Bool) : List (List String) :=
  (if workflow_committed then [["push", "-u", "origin", "main"]] else []) ++
  (if content_committed || !workflow_committed then [["push", "-u", "origin", "main"]] else [])

/-- Model of the push step of `push_existing_repo` (deploy_repo.py lines
240-245): when a commit was created, push `main` once without forcing and
raise the classified push error on any non-zero exit; when nothing was
committed, no push is issued. -/
def push_existing_push (run : List String → GitResult) (changes_committed : Bool) :
    Option PushError × List (List String) :=
  if changes_committed then
    let r := run ["push", "origin", "main"]
    if r.returncode = 0 then (none, [["push", "origin", "main"]])
    else (some (handle_push_error r), [["push", "origin", "main"]])
  else (none, [])

/-- Outcome of one HTTP request: a status code with response body, or a
transport-level exception raised by the HTTP client. -/
inductive HttpOutcome where
  | ok (status : Nat) (body : String)
  | exn (message : String)
deriving DecidableEq

/-- Model of `_ensure_pages_site` (deploy_repo.py lines 121-134). The single
POST is the parameter; statuses 201 and 204 log enablement, 409 logs
already-enabled, any other status logs a warning. The function has no
exception handler, so a transport-level exception propagates (`Except.error`). -/
def ensure_pages_site (post : HttpOutcome) : Except String String :=
  match post with
  | HttpOutcome.exn e => Except.error e
  | HttpOutcome.ok status _ =>
    if status = 201 ∨ status = 204 then Except.ok "enabled"
    else if status = 409 then Except.ok "already-enabled"
    else Except.ok "warning"

/-- Model of `_trigger_pages_build` (deploy_repo.py lines 137-147): statuses
201, 202 and 204 log success, any other status logs a warning; a
transport-level exception propagates uncaught. -/
def trigger_pages_build (post : HttpOutcome) : Except String String :=
  match post with
  | HttpOutcome.exn e => Except.error e
  | HttpOutcome.ok status _ =>
    if status = 201 ∨ status = 202 ∨ status = 204 then Except.ok "triggered"
    else Except.ok "warning"

/-- A git runner whose every invocation is rejected with a non-fast-forward
stderr, as a remote with diverged history produces. -/
def nonFastForwardRunner : List String → GitResult :=
  fun _ => GitResult.mk 1 "" "! [rejected] main -> main (non-fast-forward)"

/-- Lowercase ASCII letters and decimal digits: the character class
`[a-z0-9]` of `_slugify`. -/
def isAlnumLower (c : Char) : Bool :=
  (97 ≤ c.toNat && c.toNat ≤ 122) || (48 ≤ c.toNat && c.toNat ≤ 57)

/-- Model of `re.sub(r"[^a-z0-9]+", "-", text)`: each maximal nonempty run of
characters outside `[a-z0-9]` is replaced by a single dash. The boolean flag
records whether the previous character belonged to such a run. -/
def sub_nonalnum : Bool → List Char → List Char
  | _, [] => []
  | inRun, c :: t =>
    if isAlnumLower c then c :: sub_nonalnum false t
    else if inRun then sub_nonalnum true t
    else '-' :: sub_nonalnum true t

/-- Model of `re.sub(r"-+", "-", text)`: each maximal run of dashes is
collapsed to a single dash. -/
def collapse_dashes : Bool → List Char → List Char
  | _, [] => []
  | inRun, c :: t =>
    if c = '-' then
      if inRun then collapse_dashes true t else '-' :: collapse_dashes true t
    else c :: collapse_dashes false t

/-- The dash character test, used by `strip_dashes`. -/
def isDash (c : Char) : Bool := c == '-'

/-- Python `strip("-")`: drop leading then trailing dashes. -/
def strip_dashes (l : List Char) : List Char :=
  dropTrailing isDash (l.dropWhile isDash)

/-- Model of `_slugify` (main.py lines 104-108): lowercase, replace runs of
non-alphanumerics by a dash, collapse dash runs, strip edge dashes, and fall
back to `"project"` when nothing remains. -/
def slugify (s : String) : String :=
  let lowered := s.data.map Char.toLower
  let dashed := sub_nonalnum false lowered
  let collapsed := collapse_dashes false dashed
  let stripped := strip_dashes collapsed
  if stripped.isEmpty then "project" else String.mk stripped

/-- Whether two adjacent dashes occur anywhere in the list. -/
def has_adjacent_dashes : List Char → Bool
  | [] => false
  | [_] => false
  | a :: b :: t => (a == '-' && b == '-') || has_adjacent_dashes (b :: t)

/-- Last element of a list, if any. -/
def lastOpt : List Char → Option Char
  | [] => none
  | [a] => some a
  | _ :: b :: t => lastOpt (b :: t)

/-- Round-1 repository-name derivation of `_process_round_one` (main.py line
287): the task slug, a dash, and the first six characters of the nonce
lowercased. -/
def round_one_repo_name (task nonce : String) : String :=
  slugify task ++ "-" ++ pyLower (String.mk (nonce.data.take 6))

/-- The fields of the inbound build request used by round processing. -/
structure BuildRequest where
  secret : String
  brief : String
  email : String
  task : String
  nonce : String
  round : Nat
  evaluation_url : String
deriving DecidableEq

/-- The return contract of a publish operation (`create_and_push_repo` /
`push_existing_repo`). -/
structure RepoInfo where
  repo_url : String
  pages_url : String
  commit_sha : String
deriving DecidableEq

/-- One task entry of the persisted state document (`state.json`). -/
structure TaskState where
  repo_name : String
  repo_url : String
  pages_url : String
  last_commit_sha : String
  email : String
  nonce : String
  evaluation_url : String
  pages_ready : Bool
deriving DecidableEq

/-- The state entry written on round-1 completion (main.py lines 309-318). -/
def round_one_state_entry (req : BuildRequest) (info : RepoInfo) (ready : Bool) : TaskState :=
  { repo_name := round_one_repo_name req.task req.nonce
    repo_url := info.repo_url
    pages_url := info.pages_url
    last_commit_sha := info.commit_sha
    email := req.email
    nonce := req.nonce
    evaluation_url := req.evaluation_url
    pages_ready := ready }

/-- The state merge performed on round-2 completion (main.py lines 356-362):
the stored entry is spread and only the publish facts are overridden. -/
def round_two_merged_entry (ts : TaskState) (info : RepoInfo) (ready : Bool) : TaskState :=
  { ts with
    pages_url := info.pages_url
    repo_url := info.repo_url
    last_commit_sha := info.commit_sha
    pages_ready := ready }

/-- Python `state["tasks"][slug] = entry` on an association-list store. -/
def setTask : List (String × TaskState) → String → TaskState → List (String × TaskState)
  | [], slug, ts => [(slug, ts)]
  | (k, v) :: rest, slug, ts =>
    if k = slug then (k, ts) :: rest else (k, v) :: setTask rest slug ts

/-- External calls issued by round-2 processing, in order. -/
inductive R2Event where
  | clone (repo : String)
  | generate
  | push (repo : String)
  | pagesPoll
  | stateWrite
  | notify
deriving DecidableEq

/-- Model of `_process_round_two` (main.py lines 324-365). The store is the
persisted task mapping; `clone_ok`, `generated`, `push_result` and
`pages_ready` are the outcomes of the external collaborators, and the event
list records every network or version-control call issued. When the task
slug has no stored entry the function raises the unknown-task error
immediately, before any external call. -/
def process_round_two (tasks : List (String × TaskState)) (req : BuildRequest)
    (clone_ok generated : Bool) (push_result : Except PushError RepoInfo)
    (pages_ready : Bool) :
    List R2Event × Except String (List (String × TaskState)) :=
  let task_slug := slugify req.task
  match List.lookup task_slug tasks with
  | none => ([], Except.error ("No Round 1 state found for task " ++ req.task))
  | some task_state =>
    let repo_name := task_state.repo_name
    if !clone_ok then ([R2Event.clone repo_name], Except.error "git clone failed")
    else if !generated then
      ([R2Event.clone repo_name, R2Event.generate],
        Except.error "LLM generation failed in round 2")
    else
      match push_result with
      | Except.error _ =>
        ([R2Event.clone repo_name, R2Event.generate, R2Event.push repo_name],
          Except.error "git push failed")
      | Except.ok info =>
        if !pages_ready then
          ([R2Event.clone repo_name, R2Event.generate, R2Event.push repo_name,
              R2Event.pagesPoll],
            Except.error ("GitHub Pages did not return HTTP 200 for " ++ info.pages_url))
        else
          ([R2Event.clone repo_name, R2Event.generate, R2Event.push repo_name,
              R2Event.pagesPoll, R2Event.stateWrite, R2Event.notify],
            Except.ok (setTask tasks task_slug (round_two_merged_entry task_state info pages_ready)))

/-- Model of the polling loop of `_wait_for_pages` (main.py lines 269-282):
`resp k` is the outcome of the `k`-th GET (a status code, or a transport
exception treated as not-yet-ready). The result pairs the returned boolean
with the number of polls actually issued. -/
def wfp_go (resp : Nat → Except String Nat) : Nat → Nat → Bool × Nat
  | _, 0 => (false, 0)
  | k, n + 1 =>
    match resp k with
    | Except.ok status =>
      if status = 200 then (true, 1)
      else
        let r := wfp_go resp (k + 1) n
        (r.1, r.2 + 1)
    | Except.error _ =>
      let r := wfp_go resp (k + 1) n
      (r.1, r.2 + 1)

/-- Number of loop iterations of `_wait_for_pages`: polls happen at abstract
times `0, interval, 2*interval, ...` strictly below the deadline. -/
def num_polls (timeout interval : Nat) : Nat :=
  (timeout + interval - 1) / interval

/-- Model of `_wait_for_pages` (main.py lines 269-282): returns whether a 200
was observed and how many polls were issued. The Python defaults are
`timeout = 240`, `interval = 8`. -/
def wait_for_pages (resp : Nat → Except String Nat) (timeout interval : Nat) : Bool × Nat :=
  wfp_go resp 0 (num_polls timeout interval)

/-- Model of the retry loop of `_post_evaluation` (main.py lines 242-254):
`post k` is the outcome of the `k`-th POST. Returns
(attempts made, sleep durations in order, success flag); the Python
function never lets an exception escape and sleeps after every failed
attempt, doubling the backoff. -/
def post_eval_go (post : Nat → Except String Nat) : Nat → Nat → Nat → Nat × List Nat × Bool
  | _, _, 0 => (0, [], false)
  | backoff, k, n + 1 =>
    match post k with
    | Except.ok status =>
      if status = 200 then (1, [], true)
      else
        let r := post_eval_go post (backoff * 2) (k + 1) n
        (r.1 + 1, backoff :: r.2.1, r.2.2)
    | Except.error _ =>
      let r := post_eval_go post (backoff * 2) (k + 1) n
      (r.1 + 1, backoff :: r.2.1, r.2.2)

/-- Model of `_post_evaluation` (main.py lines 232-254): up to 5 attempts,
backoff starting at 1 and doubling after each failure. -/
def post_evaluation (post : Nat → Except String Nat) : Nat × List Nat × Bool :=
  post_eval_go post 1 0 5

/-! ## Helper lemmas about substring containment -/

theorem isPrefixB_append (n : List Char) : ∀ (h s : List Char),
    isPrefixB n h = true → isPrefixB n (h ++ s) = true := by
  induction n with
  | nil => intro h s _; simp [isPrefixB]
  | cons a xs ih =>
    intro h s hp
    cases h with
    | nil => simp [isPrefixB] at hp
    | cons b ys =>
      simp only [isPrefixB, Bool.and_eq_true] at hp
      simp only [List.cons_append, isPrefixB, Bool.and_eq_true]
      exact ⟨hp.1, ih ys s hp.2⟩

theorem isInfixB_nil (l : List Char) : isInfixB [] l = true := by
  cases l <;> simp [isInfixB, isPrefixB]

theorem isInfixB_append_left (n : List Char) : ∀ (h s : List Char),
    isInfixB n h = true → isInfixB n (h ++ s) = true := by
  intro h
  induction h with
  | nil =>
    intro s hi
    simp only [isInfixB, List.isEmpty_iff] at hi
    subst hi
    simpa using isInfixB_nil s
  | cons b t ih =>
    intro s hi
    simp only [isInfixB, Bool.or_eq_true] at hi
    simp only [List.cons_append, isInfixB, Bool.or_eq_true]
    rcases hi with hp | hi
    · exact Or.inl (by simpa using isPrefixB_append n (b :: t) s hp)
    · exact Or.inr (ih s hi)

theorem containsSub_append_left (pre s needle : String)
    (h : containsSub pre needle = true) : containsSub (pre ++ s) needle = true := by
  unfold containsSub at h ⊢
  obtain ⟨ld⟩ := pre
  obtain ⟨le⟩ := s
  exact isInfixB_append_left needle.data ld le h

/-! ## Claim theorems -/

/-- Claim C4: every finally-failed push whose stripped stderr contains the
permission-denial pattern raises the permission-specific error, whose message
contains the credential-scope remediation guidance; every finally-failed push
without that pattern raises the generic push error carrying stdout and
stderr. -/
theorem handle_push_error_classification (r : GitResult) :
    (permDenialPattern (pyStrip r.stderr) = true →
      handle_push_error r = PushError.permission (permissionMessage (pyStrip r.stderr)) ∧
      containsSub (permissionMessage (pyStrip r.stderr)) "scope" = true ∧
      containsSub (permissionMessage (pyStrip r.stderr)) "Personal Access Token" = true) ∧
    (permDenialPattern (pyStrip r.stderr) = false →
      handle_push_error r =
        PushError.generic (orElse (pyStrip r.stdout) "<empty>") (orElse (pyStrip r.stderr) "<empty>")) := by
  constructor
  · intro hp
    refine ⟨by simp [handle_push_error, hp], ?_, ?_⟩
    · exact containsSub_append_left permissionGuidance (pyStrip r.stderr) "scope" (by decide)
    · exact containsSub_append_left permissionGuidance (pyStrip r.stderr) "Personal Access Token"
        (by decide)
  · intro hp
    simp [handle_push_error, hp]

set_option maxRecDepth 4000 in
/-- Claim C4 witness: a stderr with the permission-denial pattern yields the
permission-specific error; one without it yields the generic error. -/
theorem handle_push_error_classification_witness :
    handle_push_error ⟨1, "", "remote: Permission to user/repo.git denied to bot."⟩ =
      PushError.permission
        (permissionMessage (pyStrip "remote: Permission to user/repo.git denied to bot.")) ∧
    handle_push_error ⟨1, "", "fatal: unable to access the remote"⟩ =
      PushError.generic "<empty>" "fatal: unable to access the remote" :=
  ⟨((handle_push_error_classification
      ⟨1, "", "remote: Permission to user/repo.git denied to bot."⟩).1 (by decide)).1,
    ((handle_push_error_classification
      ⟨1, "", "fatal: unable to access the remote"⟩).2 (by decide)).trans (by decide)⟩

/-- Claim C3: when force is allowed and the first push attempt fails with a
non-fast-forward or fetch-first stderr, exactly one forced retry is issued
(two invocations in total, never more), with the force flag inserted at
index 1 only if neither `-f` nor `--force` is already among the arguments;
the final outcome is decided by the forced attempt alone. -/
theorem push_with_retry_single_forced_retry (run : List String → GitResult)
    (args : List String)
    (h1 : (run args).returncode ≠ 0)
    (h2 : conflict_indicated (run args).stderr = true) :
    (push_with_retry run args true).2 = [args, insert_force_flag args] ∧
    (("-f" ∈ args ∨ "--force" ∈ args) → insert_force_flag args = args) ∧
    (("-f" ∉ args ∧ "--force" ∉ args) → insert_force_flag args = insertSecond "-f" args) ∧
    ((run (insert_force_flag args)).returncode = 0 →
      (push_with_retry run args true).1 = none) ∧
    ((run (insert_force_flag args)).returncode ≠ 0 →
      (push_with_retry run args true).1 =
        some (handle_push_error (run (insert_force_flag args)))) := by
  refine ⟨?_, ?_, ?_, ?_, ?_⟩
  · by_cases h3 : (run (insert_force_flag args)).returncode = 0 <;>
      simp [push_with_retry, h1, h2, h3]
  · intro hmem; simp [insert_force_flag, hmem]
  · intro hmem; simp [insert_force_flag, hmem.1, hmem.2]
  · intro h3; simp [push_with_retry, h1, h2, h3]
  · intro h3; simp [push_with_retry, h1, h2, h3]

/-- A git runner that rejects a plain push with a non-fast-forward stderr and
accepts a forced push. -/
def conflictThenForcedOkRunner : List String → GitResult :=
  fun args =>
    if "-f" ∈ args then GitResult.mk 0 "" ""
    else GitResult.mk 1 "" "! [rejected] main -> main (non-fast-forward)"

/-- Claim C3 witness: on a concrete rejected push, exactly the plain attempt
followed by one forced attempt is issued, and the retry succeeds. -/
theorem push_with_retry_single_forced_retry_witness :
    (push_with_retry conflictThenForcedOkRunner ["push", "-u", "origin", "main"] true).2 =
      [["push", "-u", "origin", "main"], ["push", "-f", "-u", "origin", "main"]] ∧
    (push_with_retry conflictThenForcedOkRunner ["push", "-u", "origin", "main"] true).1 = none := by
  have h := push_with_retry_single_forced_retry conflictThenForcedOkRunner
    ["push", "-u", "origin", "main"] (by decide) (by decide)
  exact ⟨h.1.trans (by decide), h.2.2.2.1 (by decide)⟩

/-- Claim C1 counterexample: when both commit opportunities report nothing to
commit (`workflow_committed = false`, `content_committed = false`), round-1
publishing still issues a push attempt, contradicting the claim that no push
attempt occurs at all. -/
theorem create_and_push_both_empty_counterexample :
    create_and_push_pushes false false ≠ [] ∧
    create_and_push_pushes false false = [["push", "-u", "origin", "main"]] := by
  decide

/-- Claim C1 amended: a push attempt occurs on every round-1 run — whenever at
least one of the two commits was created, and also (exactly once) when both
report nothing to commit; two pushes happen exactly when both commits were
created. -/
theorem create_and_push_push_guarantee :
    ∀ workflow_committed content_committed : Bool,
      1 ≤ (create_and_push_pushes workflow_committed content_committed).length ∧
      (create_and_push_pushes workflow_committed content_committed).length =
        (if workflow_committed && content_committed then 2 else 1) := by
  intro w c
  cases w <;> cases c <;> exact ⟨by decide, by decide⟩

/-- Claim C2 counterexample: in round 2, a push of main rejected with a
non-fast-forward stderr is not retried with force — exactly one unforced
invocation is issued and the round fails with the classified push error. -/
theorem push_existing_rejected_no_force_counterexample :
    (push_existing_push nonFastForwardRunner true).2 = [["push", "origin", "main"]] ∧
    (∀ call ∈ (push_existing_push nonFastForwardRunner true).2,
      "-f" ∉ call ∧ "--force" ∉ call) ∧
    (push_existing_push nonFastForwardRunner true).1.isSome = true := by
  decide

/-- Claim C2 amended: round 2 pushes main at most once and never with a force
flag; a push rejected by the remote for any reason (non-fast-forward
included) raises the classified push error immediately, with no forced
fallback — force-on-conflict exists only in round 1. -/
theorem push_existing_push_behaviour (run : List String → GitResult)
    (changes_committed : Bool) :
    (push_existing_push run changes_committed).2.length ≤ 1 ∧
    (∀ call ∈ (push_existing_push run changes_committed).2,
      call = ["push", "origin", "main"]) ∧
    (changes_committed = true → (run ["push", "origin", "main"]).returncode ≠ 0 →
      push_existing_push run changes_committed =
        (some (handle_push_error (run ["push", "origin", "main"])),
          [["push", "origin", "main"]])) := by
  refine ⟨?_, ?_, ?_⟩
  · cases changes_committed
    · simp [push_existing_push]
    · by_cases h : (run ["push", "origin", "main"]).returncode = 0 <;>
        simp [push_existing_push, h]
  · cases changes_committed
    · simp [push_existing_push]
    · by_cases h : (run ["push", "origin", "main"]).returncode = 0 <;>
        simp [push_existing_push, h]
  · rintro rfl h
    simp [push_existing_push, h]

/-- Claim C2 amended-claim witness at a concrete rejected push. -/
theorem push_existing_push_behaviour_witness :
    push_existing_push nonFastForwardRunner true =
      (some (handle_push_error (nonFastForwardRunner ["push", "origin", "main"])),
        [["push", "origin", "main"]]) :=
  (push_existing_push_behaviour nonFastForwardRunner true).2.2 rfl (by decide)

/-- Claim C8 counterexample: a transport-level exception raised by the HTTP
client is not caught by hosting activation or rebuild triggering and
propagates, contradicting the claim that they never throw on any outcome. -/
theorem hosting_activation_exception_counterexample :
    ensure_pages_site (HttpOutcome.exn "ConnectionError") = Except.error "ConnectionError" ∧
    trigger_pages_build (HttpOutcome.exn "ReadTimeout") = Except.error "ReadTimeout" :=
  ⟨rfl, rfl⟩

/-- Claim C8 amended: for every HTTP response status, hosting activation and
rebuild triggering return normally — created/already-enabled statuses are
success, any other status is merely logged as a warning — but a
transport-level exception from the HTTP client is not caught and propagates. -/
theorem hosting_activation_status_never_fails (status : Nat) (body : String) :
    (ensure_pages_site (HttpOutcome.ok status body)).isOk = true ∧
    (trigger_pages_build (HttpOutcome.ok status body)).isOk = true ∧
    ensure_pages_site (HttpOutcome.ok status body) =
      Except.ok (if status = 201 ∨ status = 204 then "enabled"
        else if status = 409 then "already-enabled" else "warning") ∧
    trigger_pages_build (HttpOutcome.ok status body) =
      Except.ok (if status = 201 ∨ status = 202 ∨ status = 204 then "triggered"
        else "warning") := by
  by_cases h1 : status = 201 ∨ status = 204 <;>
    by_cases h2 : status = 409 <;>
    by_cases h3 : status = 201 ∨ status = 202 ∨ status = 204 <;>
    simp [ensure_pages_site, trigger_pages_build, h1, h2, h3, Except.isOk, Except.toBool]

/-! ## Readiness polling (C5) -/

theorem wfp_go_all_fail (resp : Nat → Except String Nat) :
    ∀ (n k : Nat), (∀ j, j < n → resp (k + j) ≠ Except.ok 200) →
      wfp_go resp k n = (false, n) := by
  intro n
  induction n with
  | zero => intro k _; rfl
  | succ m ih =>
    intro k h
    have h0 : resp k ≠ Except.ok 200 := by simpa using h 0 (Nat.succ_pos m)
    have hrest : ∀ j, j < m → resp ((k + 1) + j) ≠ Except.ok 200 := by
      intro j hj
      have := h (j + 1) (Nat.succ_lt_succ hj)
      have e : k + (j + 1) = (k + 1) + j := by omega
      rwa [e] at this
    cases hp : resp k with
    | ok s =>
      have hs : s ≠ 200 := by rintro rfl; exact h0 hp
      simp [wfp_go, hp, hs, ih (k + 1) hrest]
    | error e =>
      simp [wfp_go, hp, ih (k + 1) hrest]

theorem wfp_go_first_success (resp : Nat → Except String Nat) :
    ∀ (n k j : Nat), j < n → (∀ i, i < j → resp (k + i) ≠ Except.ok 200) →
      resp (k + j) = Except.ok 200 → wfp_go resp k n = (true, j + 1) := by
  intro n
  induction n with
  | zero => intro k j hj; omega
  | succ m ih =>
    intro k j hj hprev hsucc
    cases j with
    | zero =>
      have : resp k = Except.ok 200 := by simpa using hsucc
      simp [wfp_go, this]
    | succ i =>
      have h0 : resp k ≠ Except.ok 200 := by simpa using hprev 0 (Nat.succ_pos i)
      have hprev2 : ∀ t, t < i → resp ((k + 1) + t) ≠ Except.ok 200 := by
        intro t ht
        have := hprev (t + 1) (Nat.succ_lt_succ ht)
        have e : k + (t + 1) = (k + 1) + t := by omega
        rwa [e] at this
      have hsucc2 : resp ((k + 1) + i) = Except.ok 200 := by
        have e : k + (i + 1) = (k + 1) + i := by omega
        rwa [e] at hsucc
      have hrec := ih (k + 1) i (by omega) hprev2 hsucc2
      cases hp : resp k with
      | ok s =>
        have hs : s ≠ 200 := by rintro rfl; exact h0 hp
        simp [wfp_go, hp, hs, hrec]
      | error e =>
        simp [wfp_go, hp, hrec]

/-- Claim C5: the readiness poller returns true the first time a poll yields
status 200 (and stops right there), and returns false — it is a total
function, never an exception — when every poll before the deadline fails;
transport errors and non-200 statuses alike merely count as not-yet-ready. -/
theorem wait_for_pages_spec (resp : Nat → Except String Nat) (timeout interval : Nat) :
    ((∀ j, j < num_polls timeout interval → resp j ≠ Except.ok 200) →
      wait_for_pages resp timeout interval = (false, num_polls timeout interval)) ∧
    (∀ j, j < num_polls timeout interval →
      (∀ i, i < j → resp i ≠ Except.ok 200) → resp j = Except.ok 200 →
      wait_for_pages resp timeout interval = (true, j + 1)) := by
  constructor
  · intro h
    exact wfp_go_all_fail resp _ 0 (fun j hj => by simpa using h j hj)
  · intro j hj hprev hsucc
    exact wfp_go_first_success resp _ 0 j hj (fun i hi => by simpa using hprev i hi)
      (by simpa using hsucc)

/-- Claim C5 witness, at the Python defaults (timeout 240, interval 8, hence
30 polls): an endpoint that always errors yields false after 30 polls; one
that first succeeds on the fourth poll yields true after exactly 4 polls. -/
theorem wait_for_pages_spec_witness :
    wait_for_pages (fun _ => Except.error "ConnectionError") 240 8 = (false, 30) ∧
    wait_for_pages (fun k => if k = 3 then Except.ok 200 else Except.ok 404) 240 8 = (true, 4) := by
  constructor
  · have h := (wait_for_pages_spec (fun _ => Except.error "ConnectionError") 240 8).1
      (by intro j _; simp)
    simpa using h
  · exact (wait_for_pages_spec (fun k => if k = 3 then Except.ok 200 else Except.ok 404) 240 8).2
      3 (by decide) (by intro i hi; simp [show i ≠ 3 by omega]) (by simp)

/-! ## Evaluation notification (C6) -/

/-- The sleep durations of a run of failed attempts: the backoff value before
each doubling. -/
def backoff_sleeps : Nat → Nat → List Nat
  | _, 0 => []
  | b, n + 1 => b :: backoff_sleeps (b * 2) n

theorem post_eval_go_all_fail (post : Nat → Except String Nat) :
    ∀ (n b k : Nat), (∀ j, j < n → post (k + j) ≠ Except.ok 200) →
      post_eval_go post b k n = (n, backoff_sleeps b n, false) := by
  intro n
  induction n with
  | zero => intro b k _; rfl
  | succ m ih =>
    intro b k h
    have h0 : post k ≠ Except.ok 200 := by simpa using h 0 (Nat.succ_pos m)
    have hrest : ∀ j, j < m → post ((k + 1) + j) ≠ Except.ok 200 := by
      intro j hj
      have := h (j + 1) (Nat.succ_lt_succ hj)
      have e : k + (j + 1) = (k + 1) + j := by omega
      rwa [e] at this
    cases hp : post k with
    | ok s =>
      have hs : s ≠ 200 := by rintro rfl; exact h0 hp
      simp [post_eval_go, hp, hs, ih (b * 2) (k + 1) hrest, backoff_sleeps]
    | error e =>
      simp [post_eval_go, hp, ih (b * 2) (k + 1) hrest, backoff_sleeps]

/-- Claim C6: against an endpoint that never answers 200 (failure statuses
and transport errors alike), the evaluation notifier makes exactly 5 POST
attempts with sleep durations 1, 2, 4, 8, 16 — backoff starting at 1 and
doubling, no jitter — and then returns normally (success flag false, no
exception: the model is a total function). -/
theorem post_evaluation_exhausts_five_attempts (post : Nat → Except String Nat)
    (h : ∀ j, j < 5 → post j ≠ Except.ok 200) :
    post_evaluation post = (5, [1, 2, 4, 8, 16], false) := by
  have := post_eval_go_all_fail post 5 1 0 (by intro j hj; simpa using h j hj)
  simpa [post_evaluation, backoff_sleeps] using this

/-- Claim C6 witness: an endpoint that always returns HTTP 500. -/
theorem post_evaluation_exhausts_five_attempts_witness :
    post_evaluation (fun _ => Except.ok 500) = (5, [1, 2, 4, 8, 16], false) :=
  post_evaluation_exhausts_five_attempts (fun _ => Except.ok 500)
    (by intro j _; simp)

/-! ## Round-2 state handling (C7, C9) -/

theorem lookup_setTask (tasks : List (String × TaskState)) (slug : String) (ts : TaskState) :
    List.lookup slug (setTask tasks slug ts) = some ts := by
  induction tasks with
  | nil => simp [setTask, List.lookup]
  | cons p rest ih =>
    obtain ⟨k, v⟩ := p
    by_cases hk : k = slug
    · simp [setTask, hk, List.lookup]
    · have hne : (slug == k) = false := beq_eq_false_iff_ne.mpr (Ne.symm hk)
      simp [setTask, hk, List.lookup, ih, hne]

/-- Claim C7: a round-2 trigger whose task slug has no recorded round-1 state
fails with the unknown-task error immediately: the event trace is empty — no
clone, no generation, no push, no state write — whatever the outcomes of the
external collaborators would have been. -/
theorem round_two_unknown_task_fails_first (tasks : List (String × TaskState))
    (req : BuildRequest) (clone_ok generated : Bool)
    (push_result : Except PushError RepoInfo) (pages_ready : Bool)
    (h : List.lookup (slugify req.task) tasks = none) :
    process_round_two tasks req clone_ok generated push_result pages_ready =
      ([], Except.error ("No Round 1 state found for task " ++ req.task)) := by
  simp [process_round_two, h]

/-- Claim C7 witness: an empty store, with collaborators that would all
succeed, still fails up front with an empty event trace. -/
theorem round_two_unknown_task_fails_first_witness :
    process_round_two [] ⟨"s", "brief", "e@x", "Some Task", "nonce1", 2, "http"⟩ true true
      (Except.ok ⟨"r", "p", "c"⟩) true =
      ([], Except.error ("No Round 1 state found for task " ++ "Some Task")) :=
  round_two_unknown_task_fails_first [] ⟨"s", "brief", "e@x", "Some Task", "nonce1", 2, "http"⟩
    true true (Except.ok ⟨"r", "p", "c"⟩) true rfl

/-- Claim C9: the repository name is assigned exactly once, at round 1, as
the task slug plus the first 6 lowercased nonce characters; round 2 resolves
the identical name from stored state (the clone and push it issues use the
stored `repo_name`, not a re-derivation), and the round-2 completion merge
leaves the stored repository name unchanged. -/
theorem repo_name_assigned_once_immutable (req : BuildRequest) (info : RepoInfo)
    (ready : Bool) (ts : TaskState) (tasks : List (String × TaskState))
    (h : List.lookup (slugify req.task) tasks = some ts) :
    (round_one_state_entry req info ready).repo_name = round_one_repo_name req.task req.nonce ∧
    round_one_repo_name req.task req.nonce =
      slugify req.task ++ "-" ++ pyLower (String.mk (req.nonce.data.take 6)) ∧
    (round_two_merged_entry ts info ready).repo_name = ts.repo_name ∧
    (process_round_two tasks req true true (Except.ok info) true).1 =
      [R2Event.clone ts.repo_name, R2Event.generate, R2Event.push ts.repo_name,
        R2Event.pagesPoll, R2Event.stateWrite, R2Event.notify] ∧
    (process_round_two tasks req true true (Except.ok info) true).2 =
      Except.ok (setTask tasks (slugify req.task) (round_two_merged_entry ts info true)) ∧
    List.lookup (slugify req.task)
        (setTask tasks (slugify req.task) (round_two_merged_entry ts info true)) =
      some (round_two_merged_entry ts info true) := by
  refine ⟨rfl, rfl, rfl, ?_, ?_, lookup_setTask tasks (slugify req.task) (round_two_merged_entry ts info true)⟩
  · simp [process_round_two, h]
  · simp [process_round_two, h]

/-- Claim C9 witness: a store whose saved repository name does not match what
re-derivation from the incoming round-2 request would produce (different
nonce); round 2 still clones and pushes the stored name. -/
theorem repo_name_assigned_once_immutable_witness :
    (round_one_state_entry ⟨"s", "b", "e@x", "Build a todo app", "ABC123xyz", 1, "http"⟩
        ⟨"r", "p", "c"⟩ true).repo_name = "build-a-todo-app-abc123" ∧
    (process_round_two
        [("build-a-todo-app",
          ⟨"build-a-todo-app-abc123", "r", "p", "c", "e@x", "ABC123xyz", "http", true⟩)]
        ⟨"s", "b", "e@x", "Build a todo app", "zzz999xyz", 2, "http"⟩
        true true (Except.ok ⟨"r2", "p2", "c2"⟩) true).1 =
      [R2Event.clone "build-a-todo-app-abc123", R2Event.generate,
        R2Event.push "build-a-todo-app-abc123", R2Event.pagesPoll,
        R2Event.stateWrite, R2Event.notify] := by
  have h := repo_name_assigned_once_immutable
    ⟨"s", "b", "e@x", "Build a todo app", "zzz999xyz", 2, "http"⟩ ⟨"r2", "p2", "c2"⟩ true
    ⟨"build-a-todo-app-abc123", "r", "p", "c", "e@x", "ABC123xyz", "http", true⟩
    [("build-a-todo-app",
      ⟨"build-a-todo-app-abc123", "r", "p", "c", "e@x", "ABC123xyz", "http", true⟩)]
    (by decide)
  refine ⟨?_, h.2.2.2.1⟩
  have h2 := (repo_name_assigned_once_immutable
    ⟨"s", "b", "e@x", "Build a todo app", "ABC123xyz", 1, "http"⟩ ⟨"r", "p", "c"⟩ true
    ⟨"build-a-todo-app-abc123", "r", "p", "c", "e@x", "ABC123xyz", "http", true⟩
    [("build-a-todo-app",
      ⟨"build-a-todo-app-abc123", "r", "p", "c", "e@x", "ABC123xyz", "http", true⟩)]
    (by decide)).1
  exact h2.trans (by decide)

/-! ## Slug well-formedness (C10) -/

theorem isAlnumLower_not_dash {c : Char} (h : isAlnumLower c = true) : (c == '-') = false := by
  rcases eq_or_ne c '-' with rfl | hne
  · exact absurd h (by decide)
  · exact beq_eq_false_iff_ne.mpr hne

theorem hasDD_tail {a : Char} {l : List Char}
    (h : has_adjacent_dashes (a :: l) = false) : has_adjacent_dashes l = false := by
  cases l with
  | nil => rfl
  | cons b t =>
    rw [show has_adjacent_dashes (a :: b :: t) =
      (((a == '-') && (b == '-')) || has_adjacent_dashes (b :: t)) from rfl] at h
    exact (Bool.or_eq_false_iff.mp h).2

theorem hasDD_cons_of_ne {a : Char} (h : (a == '-') = false) (l : List Char) :
    has_adjacent_dashes (a :: l) = has_adjacent_dashes l := by
  cases l with
  | nil => rfl
  | cons b t =>
    show (((a == '-') && (b == '-')) || has_adjacent_dashes (b :: t)) = _
    rw [h]
    simp

theorem hasDD_cons_dash {l : List Char}
    (h : ∀ c, l.head? = some c → (c == '-') = false) :
    has_adjacent_dashes ('-' :: l) = has_adjacent_dashes l := by
  cases l with
  | nil => rfl
  | cons b t =>
    have hb := h b rfl
    show ((('-' == '-') && (b == '-')) || has_adjacent_dashes (b :: t)) = _
    rw [hb]
    simp

theorem mem_sub_nonalnum : ∀ (l : List Char) (b : Bool) (c : Char),
    c ∈ sub_nonalnum b l → isAlnumLower c = true ∨ c = '-' := by
  intro l
  induction l with
  | nil => intro b c h; simp [sub_nonalnum] at h
  | cons a t ih =>
    intro b c h
    by_cases ha : isAlnumLower a = true
    · rw [show sub_nonalnum b (a :: t) = a :: sub_nonalnum false t by
        simp [sub_nonalnum, ha]] at h
      rcases List.mem_cons.mp h with rfl | h2
      · exact Or.inl ha
      · exact ih false c h2
    · cases b with
      | true =>
        rw [show sub_nonalnum true (a :: t) = sub_nonalnum true t by
          simp [sub_nonalnum, ha]] at h
        exact ih true c h
      | false =>
        rw [show sub_nonalnum false (a :: t) = '-' :: sub_nonalnum true t by
          simp [sub_nonalnum, ha]] at h
        rcases List.mem_cons.mp h with rfl | h2
        · exact Or.inr rfl
        · exact ih true c h2

theorem head_sub_nonalnum_true : ∀ (l : List Char) (c : Char),
    (sub_nonalnum true l).head? = some c → isAlnumLower c = true := by
  intro l
  induction l with
  | nil => intro c h; simp [sub_nonalnum] at h
  | cons a t ih =>
    intro c h
    by_cases ha : isAlnumLower a = true
    · rw [show sub_nonalnum true (a :: t) = a :: sub_nonalnum false t by
        simp [sub_nonalnum, ha]] at h
      simp at h
      exact h ▸ ha
    · rw [show sub_nonalnum true (a :: t) = sub_nonalnum true t by
        simp [sub_nonalnum, ha]] at h
      exact ih c h

theorem hasDD_sub_nonalnum : ∀ (l : List Char) (b : Bool),
    has_adjacent_dashes (sub_nonalnum b l) = false := by
  intro l
  induction l with
  | nil => intro b; rfl
  | cons a t ih =>
    intro b
    by_cases ha : isAlnumLower a = true
    · rw [show sub_nonalnum b (a :: t) = a :: sub_nonalnum false t by
        simp [sub_nonalnum, ha]]
      rw [hasDD_cons_of_ne (isAlnumLower_not_dash ha)]
      exact ih false
    · cases b with
      | true =>
        rw [show sub_nonalnum true (a :: t) = sub_nonalnum true t by
          simp [sub_nonalnum, ha]]
        exact ih true
      | false =>
        rw [show sub_nonalnum false (a :: t) = '-' :: sub_nonalnum true t by
          simp [sub_nonalnum, ha]]
        rw [hasDD_cons_dash (fun c hc => isAlnumLower_not_dash (head_sub_nonalnum_true t c hc))]
        exact ih true

theorem mem_collapse_dashes : ∀ (l : List Char) (b : Bool) (c : Char),
    c ∈ collapse_dashes b l → c ∈ l := by
  intro l
  induction l with
  | nil => intro b c h; simp [collapse_dashes] at h
  | cons a t ih =>
    intro b c h
    by_cases hd : a = '-'
    · subst hd
      cases b with
      | true =>
        rw [show collapse_dashes true ('-' :: t) = collapse_dashes true t by
          simp [collapse_dashes]] at h
        exact List.mem_cons_of_mem _ (ih true c h)
      | false =>
        rw [show collapse_dashes false ('-' :: t) = '-' :: collapse_dashes true t by
          simp [collapse_dashes]] at h
        rcases List.mem_cons.mp h with rfl | h2
        · exact List.mem_cons_self _ _
        · exact List.mem_cons_of_mem _ (ih true c h2)
    · rw [show collapse_dashes b (a :: t) = a :: collapse_dashes false t by
        simp [collapse_dashes, hd]] at h
      rcases List.mem_cons.mp h with rfl | h2
      · exact List.mem_cons_self _ _
      · exact List.mem_cons_of_mem _ (ih false c h2)

theorem head_collapse_true : ∀ (l : List Char) (c : Char),
    (collapse_dashes true l).head? = some c → (c == '-') = false := by
  intro l
  induction l with
  | nil => intro c h; simp [collapse_dashes] at h
  | cons a t ih =>
    intro c h
    by_cases hd : a = '-'
    · subst hd
      rw [show collapse_dashes true ('-' :: t) = collapse_dashes true t by
        simp [collapse_dashes]] at h
      exact ih c h
    · rw [show collapse_dashes true (a :: t) = a :: collapse_dashes false t by
        simp [collapse_dashes, hd]] at h
      simp at h
      exact h ▸ beq_eq_false_iff_ne.mpr hd

theorem hasDD_collapse_dashes : ∀ (l : List Char) (b : Bool),
    has_adjacent_dashes (collapse_dashes b l) = false := by
  intro l
  induction l with
  | nil => intro b; rfl
  | cons a t ih =>
    intro b
    by_cases hd : a = '-'
    · subst hd
      cases b with
      | true =>
        rw [show collapse_dashes true ('-' :: t) = collapse_dashes true t by
          simp [collapse_dashes]]
        exact ih true
      | false =>
        rw [show collapse_dashes false ('-' :: t) = '-' :: collapse_dashes true t by
          simp [collapse_dashes]]
        rw [hasDD_cons_dash (head_collapse_true t)]
        exact ih true
    · rw [show collapse_dashes b (a :: t) = a :: collapse_dashes false t by
        simp [collapse_dashes, hd]]
      rw [hasDD_cons_of_ne (beq_eq_false_iff_ne.mpr hd)]
      exact ih false

theorem head_dropWhile (p : Char → Bool) : ∀ (l : List Char) (c : Char),
    (l.dropWhile p).head? = some c → p c = false := by
  intro l
  induction l with
  | nil => intro c h; simp at h
  | cons a t ih =>
    intro c h
    rw [List.dropWhile_cons] at h
    by_cases hp : p a = true
    · rw [if_pos hp] at h
      exact ih c h
    · rw [if_neg hp] at h
      simp at h
      exact h ▸ Bool.not_eq_true (p a) ▸ (by simpa using hp)

theorem hasDD_dropWhile (p : Char → Bool) : ∀ l : List Char,
    has_adjacent_dashes l = false → has_adjacent_dashes (l.dropWhile p) = false := by
  intro l
  induction l with
  | nil => intro _; rfl
  | cons a t ih =>
    intro h
    rw [List.dropWhile_cons]
    by_cases hp : p a = true
    · rw [if_pos hp]
      exact ih (hasDD_tail h)
    · rw [if_neg hp]
      exact h

theorem mem_dropTrailing (p : Char → Bool) : ∀ (l : List Char) (c : Char),
    c ∈ dropTrailing p l → c ∈ l := by
  intro l
  induction l with
  | nil => intro c h; simp [dropTrailing] at h
  | cons a t ih =>
    intro c h
    simp only [dropTrailing] at h
    cases hr : dropTrailing p t with
    | nil =>
      rw [hr] at h
      simp at h
      exact h.2 ▸ List.mem_cons_self _ _
    | cons x r =>
      rw [hr] at h
      simp at h
      rcases h with rfl | h2
      · exact List.mem_cons_self _ _
      · exact List.mem_cons_of_mem _ (ih c (hr ▸ List.mem_cons.mpr h2))

theorem head_dropTrailing (p : Char → Bool) : ∀ l : List Char,
    dropTrailing p l = [] ∨ (dropTrailing p l).head? = l.head? := by
  intro l
  cases l with
  | nil => exact Or.inl rfl
  | cons a t =>
    simp only [dropTrailing]
    cases hr : dropTrailing p t with
    | nil =>
      simp only [List.isEmpty_nil, if_true]
      by_cases hp : p a = true
      · rw [if_pos hp]; exact Or.inl rfl
      · rw [if_neg hp]; exact Or.inr rfl
    | cons x r =>
      simp only [List.isEmpty_cons, if_false]
      exact Or.inr rfl

theorem lastOpt_dropTrailing (p : Char → Bool) : ∀ (l : List Char) (c : Char),
    lastOpt (dropTrailing p l) = some c → p c = false := by
  intro l
  induction l with
  | nil => intro c h; simp [dropTrailing, lastOpt] at h
  | cons a t ih =>
    intro c h
    simp only [dropTrailing] at h
    cases hr : dropTrailing p t with
    | nil =>
      rw [hr] at h
      simp at h
      by_cases hp : p a = true
      · rw [if_pos hp] at h
        simp [lastOpt] at h
      · rw [if_neg hp] at h
        simp [lastOpt] at h
        exact h ▸ (by simpa using hp)
    | cons x r =>
      rw [hr] at h
      simp at h
      rw [show lastOpt (a :: x :: r) = lastOpt (x :: r) from rfl] at h
      exact ih c (hr ▸ h)

theorem hasDD_dropTrailing (p : Char → Bool) : ∀ l : List Char,
    has_adjacent_dashes l = false → has_adjacent_dashes (dropTrailing p l) = false := by
  intro l
  induction l with
  | nil => intro _; rfl
  | cons a t ih =>
    intro h
    simp only [dropTrailing]
    cases hr : dropTrailing p t with
    | nil =>
      simp only [List.isEmpty_nil, if_true]
      by_cases hp : p a = true
      · rw [if_pos hp]; rfl
      · rw [if_neg hp]; rfl
    | cons x r =>
      rw [if_neg (by simp)]
      have hrec : has_adjacent_dashes (x :: r) = false := hr ▸ ih (hasDD_tail h)
      rcases head_dropTrailing p t with he | hh
      · rw [he] at hr; exact absurd hr (by simp)
      · rw [hr] at hh
        cases t with
        | nil => simp at hh
        | cons b t2 =>
          simp at hh
          subst hh
          rw [show has_adjacent_dashes (a :: x :: r) =
            (((a == '-') && (x == '-')) || has_adjacent_dashes (x :: r)) from rfl]
          rw [show has_adjacent_dashes (a :: x :: t2) =
            (((a == '-') && (x == '-')) || has_adjacent_dashes (x :: t2)) from rfl] at h
          rw [(Bool.or_eq_false_iff.mp h).1, hrec]
          rfl

theorem sub_nonalnum_all_bad : ∀ l : List Char, (∀ c ∈ l, isAlnumLower c = false) →
    sub_nonalnum true l = [] ∧
      sub_nonalnum false l = (if l.isEmpty then [] else ['-']) := by
  intro l
  induction l with
  | nil => exact fun _ => ⟨rfl, rfl⟩
  | cons a t ih =>
    intro h
    have ha : isAlnumLower a = false := h a (List.mem_cons_self a t)
    have hna : ¬ isAlnumLower a = true := by simp [ha]
    have ht := ih (fun c hc => h c (List.mem_cons_of_mem a hc))
    constructor
    · rw [show sub_nonalnum true (a :: t) = sub_nonalnum true t by
        simp [sub_nonalnum, hna]]
      exact ht.1
    · rw [show sub_nonalnum false (a :: t) = '-' :: sub_nonalnum true t by
        simp [sub_nonalnum, hna]]
      rw [ht.1]
      simp

/-- Claim C10: for every input string, `_slugify` returns a non-empty string
whose characters are lowercase letters, digits, or hyphens; a hyphen never
occurs first, last, or twice in a row; and an input with no (lowercased)
alphanumeric character yields the fallback slug `"project"`. -/
theorem slugify_wellformed (s : String) :
    slugify s ≠ "" ∧
    (∀ c ∈ (slugify s).data, isAlnumLower c = true ∨ c = '-') ∧
    (∀ c, (slugify s).data.head? = some c → c ≠ '-') ∧
    (∀ c, lastOpt (slugify s).data = some c → c ≠ '-') ∧
    has_adjacent_dashes (slugify s).data = false ∧
    ((∀ c ∈ s.data, isAlnumLower (Char.toLower c) = false) → slugify s = "project") := by
  have hlower : ∀ c ∈ s.data.map Char.toLower, isAlnumLower c = false →
      True := fun _ _ _ => trivial
  by_cases hemp :
      (strip_dashes (collapse_dashes false (sub_nonalnum false
        (s.data.map Char.toLower)))).isEmpty = true
  · have hs : slugify s = "project" := by
      simp only [slugify]
      rw [if_pos hemp]
    refine ⟨by rw [hs]; decide, ?_, ?_, ?_, ?_, fun _ => hs⟩
    · rw [hs]; decide
    · rw [hs]
      intro c hc
      simp at hc
      subst hc
      decide
    · rw [hs]
      intro c hc
      rw [show lastOpt ("project".data) = some 't' from rfl] at hc
      simp at hc
      subst hc
      decide
    · rw [hs]; decide
  · have hs : slugify s = String.mk (strip_dashes (collapse_dashes false
        (sub_nonalnum false (s.data.map Char.toLower)))) := by
      simp only [slugify]
      rw [if_neg hemp]
    have hdata : (slugify s).data = strip_dashes (collapse_dashes false
        (sub_nonalnum false (s.data.map Char.toLower))) := by rw [hs]
    refine ⟨?_, ?_, ?_, ?_, ?_, ?_⟩
    · intro h
      apply hemp
      have : (slugify s).data = [] := by rw [h]
      rw [hdata] at this
      rw [this]
      rfl
    · intro c hc
      rw [hdata] at hc
      have h1 : c ∈ collapse_dashes false (sub_nonalnum false (s.data.map Char.toLower)) :=
        List.Sublist.mem (mem_dropTrailing isDash _ c hc) (List.dropWhile_sublist isDash)
      exact mem_sub_nonalnum _ false c (mem_collapse_dashes _ false c h1)
    · intro c hc
      rw [hdata] at hc
      rcases head_dropTrailing isDash ((collapse_dashes false (sub_nonalnum false
          (s.data.map Char.toLower))).dropWhile isDash) with he | hh
      · rw [show strip_dashes (collapse_dashes false (sub_nonalnum false
            (s.data.map Char.toLower))) = dropTrailing isDash ((collapse_dashes false
            (sub_nonalnum false (s.data.map Char.toLower))).dropWhile isDash) from rfl, he] at hc
        simp at hc
      · rw [show strip_dashes (collapse_dashes false (sub_nonalnum false
            (s.data.map Char.toLower))) = dropTrailing isDash ((collapse_dashes false
            (sub_nonalnum false (s.data.map Char.toLower))).dropWhile isDash) from rfl, hh] at hc
        have := head_dropWhile isDash _ c hc
        exact fun hcd => by rw [hcd] at this; exact absurd this (by decide)
    · intro c hc
      rw [hdata] at hc
      have := lastOpt_dropTrailing isDash _ c hc
      exact fun hcd => by rw [hcd] at this; exact absurd this (by decide)
    · rw [hdata]
      exact hasDD_dropTrailing isDash _ (hasDD_dropWhile isDash _
        (hasDD_collapse_dashes _ false))
    · intro hall
      exfalso
      apply hemp
      have hbad : ∀ c ∈ s.data.map Char.toLower, isAlnumLower c = false := by
        intro c hc
        rcases List.mem_map.mp hc with ⟨d, hd, rfl⟩
        exact hall d hd
      have hsub := (sub_nonalnum_all_bad (s.data.map Char.toLower) hbad).2
      cases hmap : s.data.map Char.toLower with
      | nil =>
        rw [hmap] at hsub
        simp at hsub
        rw [hsub]
        rfl
      | cons x xs =>
        rw [hmap] at hsub
        simp at hsub
        rw [hsub]
        rfl

/-- Claim C10 witness: a well-formed slug from a mixed input, and the
`"project"` fallback for an input with no alphanumeric character. -/
theorem slugify_wellformed_witness :
    slugify "Build a todo app" ≠ "" ∧ slugify "??" = "project" :=
  ⟨(slugify_wellformed "Build a todo app").1,
    (slugify_wellformed "??").2.2.2.2.2 (by decide)⟩
